import Mathlib

/-!
Verification development for the parameter-conversion module
`bilby/gw/conversion.py`.

The numeric code operates on Python/NumPy floats; following the spec we
model values in exact real arithmetic: `x ** y` on floats becomes real
`rpow`, `np.sqrt` becomes `Real.sqrt`, and `np.cbrt` becomes a signed real
cube root.  Dictionary-valued samples are modelled as insertion-ordered
association lists from parameter names to reals, and a Python `KeyError`
is modelled by an `Except String` result carrying the missing key.
-/

noncomputable section

open Real

/-- Signed real cube root, the model of `np.cbrt` (numpy's cbrt accepts
negative inputs and returns the real root). -/
def np_cbrt (x : ℝ) : ℝ :=
  if 0 ≤ x then x ^ ((1 : ℝ) / 3) else -((-x) ^ ((1 : ℝ) / 3))

/-- Model of `np.sign` restricted to real scalars. -/
def np_sign (x : ℝ) : ℝ :=
  if 0 < x then 1 else if x < 0 then -1 else 0

/-- Model of `np.mod x y` for real scalars (`y > 0` in all uses). -/
def np_mod (x y : ℝ) : ℝ :=
  x - y * ⌊x / y⌋

/-! ## Mass parameterization engine (source lines 400-670) -/

/-- Source lines 400-421: `mass_1 = M/(1+q)`, `mass_2 = mass_1*q`. -/
def total_mass_and_mass_ratio_to_component_masses (mass_ratio total_mass : ℝ) :
    ℝ × ℝ :=
  let mass_1 := total_mass / (1 + mass_ratio)
  let mass_2 := mass_1 * mass_ratio
  (mass_1, mass_2)

/-- Source lines 520-540: `M = Mc * (1+q)**1.2 / q**0.6`. -/
def chirp_mass_and_mass_ratio_to_total_mass (chirp_mass mass_ratio : ℝ) : ℝ :=
  chirp_mass * (1 + mass_ratio) ^ ((1.2 : ℝ)) / mass_ratio ^ ((0.6 : ℝ))

/-- Source lines 424-448: chirp mass and mass ratio to component masses,
composed from the total-mass solve. -/
def chirp_mass_and_mass_ratio_to_component_masses (chirp_mass mass_ratio : ℝ) :
    ℝ × ℝ :=
  let total_mass := chirp_mass_and_mass_ratio_to_total_mass chirp_mass mass_ratio
  total_mass_and_mass_ratio_to_component_masses mass_ratio total_mass

/-- Source lines 451-467: `temp = 1/eta/2 - 1; temp - (temp**2 - 1)**0.5`. -/
def symmetric_mass_ratio_to_mass_ratio (symmetric_mass_ratio : ℝ) : ℝ :=
  let temp := 1 / symmetric_mass_ratio / 2 - 1
  temp - (temp ^ (2 : ℕ) - 1) ^ ((0.5 : ℝ))

/-- Source lines 470-487: `(Mc/M)**(5/3)`. -/
def chirp_mass_and_total_mass_to_symmetric_mass_ratio (chirp_mass total_mass : ℝ) :
    ℝ :=
  (chirp_mass / total_mass) ^ ((5 : ℝ) / 3)

/-- Source lines 490-517: Cardano-form solve of
`(Mc/m1)^5 = q^3/(1+q)` using `np.cbrt` and `np.sqrt`. -/
def chirp_mass_and_primary_mass_to_mass_ratio (chirp_mass mass_1 : ℝ) : ℝ :=
  let a := (chirp_mass / mass_1) ^ (5 : ℕ)
  let t0 := np_cbrt (9 * a + Real.sqrt 3 * Real.sqrt (27 * a ^ (2 : ℕ) - 4 * a ^ (3 : ℕ)))
  let t1 := np_cbrt 2 * (3 : ℝ) ^ ((2 : ℝ) / 3)
  let t2 := np_cbrt (2 / 3) * a
  t2 / t0 + t0 / t1

/-- Source lines 543-560: `Mc = (m1*m2)**0.6 / (m1+m2)**0.2`. -/
def component_masses_to_chirp_mass (mass_1 mass_2 : ℝ) : ℝ :=
  (mass_1 * mass_2) ^ ((0.6 : ℝ)) / (mass_1 + mass_2) ^ ((0.2 : ℝ))

/-- Source lines 563-580: `M = m1 + m2`. -/
def component_masses_to_total_mass (mass_1 mass_2 : ℝ) : ℝ :=
  mass_1 + mass_2

/-- Source lines 583-600: `eta = min(m1*m2/(m1+m2)^2, 1/4)`. -/
def component_masses_to_symmetric_mass_ratio (mass_1 mass_2 : ℝ) : ℝ :=
  min ((mass_1 * mass_2) / (mass_1 + mass_2) ^ (2 : ℕ)) (1 / 4)

/-- Source lines 603-620: `q = m2/m1`. -/
def component_masses_to_mass_ratio (mass_1 mass_2 : ℝ) : ℝ :=
  mass_2 / mass_1

/-- Source lines 623-646: closed-form solve of
`mc = m1 * q**(3/5) / (1+q)**(1/5)` for `q`, written with `** 0.5` and
`** (1/3)` powers exactly as in the source. -/
def mass_1_and_chirp_mass_to_mass_ratio (mass_1 chirp_mass : ℝ) : ℝ :=
  let temp := (chirp_mass / mass_1) ^ (5 : ℕ)
  (2 / 3 / ((3 : ℝ) ^ ((0.5 : ℝ)) * (27 * temp ^ (2 : ℕ) - 4 * temp ^ (3 : ℕ)) ^ ((0.5 : ℝ)) +
      9 * temp)) ^ ((1 : ℝ) / 3) * temp +
    (((3 : ℝ) ^ ((0.5 : ℝ)) * (27 * temp ^ (2 : ℕ) - 4 * temp ^ (3 : ℕ)) ^ ((0.5 : ℝ)) +
      9 * temp) / (2 * 3 ^ (2 : ℕ))) ^ ((1 : ℝ) / 3)

/-- Source lines 649-670: the mass-2 form is literally the reciprocal of
the mass-1 form (chirp mass is symmetric under exchange). -/
def mass_2_and_chirp_mass_to_mass_ratio (mass_2 chirp_mass : ℝ) : ℝ :=
  1 / mass_1_and_chirp_mass_to_mass_ratio mass_2 chirp_mass

/-! ## Samples as insertion-ordered dictionaries

A Python `dict`-valued sample is modelled as an association list without
duplicate keys; assignment updates in place or appends, lookup of a
missing key is the `KeyError` carrying the key name. -/

/-- Parameter names. -/
abbrev PKey := String

/-- A sample: ordered mapping from parameter name to (real-modelled)
value. -/
abbrev Sample := List (PKey × ℝ)

/-- Dictionary lookup (first binding wins; `dset` keeps keys unique). -/
def dlookup : Sample → PKey → Option ℝ
  | [], _ => none
  | (k', v) :: t, k => if k' = k then some v else dlookup t k

/-- Membership test, the model of `key in sample.keys()`. -/
def dmem (s : Sample) (k : PKey) : Bool :=
  (dlookup s k).isSome

/-- Subscript read `sample[key]`: a missing key is a `KeyError`. -/
def dget (s : Sample) (k : PKey) : Except String ℝ :=
  match dlookup s k with
  | some v => .ok v
  | none => .error k

/-- Subscript assignment `sample[key] = v`: replaces in place if the key
exists, else appends (Python dict insertion order). -/
def dset : Sample → PKey → ℝ → Sample
  | [], k, v => [(k, v)]
  | (k', v') :: t, k, v => if k' = k then (k, v) :: t else (k', v') :: dset t k v

/-- The key list of a sample, the model of `sample.keys()`. -/
def dkeys (s : Sample) : List PKey :=
  s.map Prod.fst

/-- Substring test on character lists, the model of Python's
`needle in key` for strings. -/
def char_list_infix (p : List Char) : List Char → Bool
  | [] => p.isEmpty
  | c :: t => p.isPrefixOf (c :: t) || char_list_infix p t

/-! ## Completion policy for component masses (source lines 1007-1166)

The translation mirrors the source's control flow.  Python's
`check_and_return_quietly` raises in strict mode and returns the input
sample in lenient mode; in the `mass_2`-present branch the source calls
it *without* `return` (line 1107), so in lenient mode control falls
through to line 1109 and reads the absent `mass_ratio` key. -/

/-- Source lines 1007-1166 (`generate_component_masses`). -/
def generate_component_masses (sample : Sample)
    (require_add : Bool) (source : Bool) : Except String Sample := do
  let check_and_return_quietly : Except String Sample :=
    if require_add then
      .error "Insufficient mass parameters in input dictionary"
    else
      .ok sample
  let output_sample := sample
  let mass_1_key := if source then "mass_1_source" else "mass_1"
  let mass_2_key := if source then "mass_2_source" else "mass_2"
  let total_mass_key := if source then "total_mass_source" else "total_mass"
  let chirp_mass_key := if source then "chirp_mass_source" else "chirp_mass"
  if dmem sample mass_1_key then
    if dmem sample mass_2_key then
      return output_sample
    if dmem sample total_mass_key then
      return dset output_sample mass_2_key
        ((← dget output_sample total_mass_key) - (← dget output_sample mass_1_key))
    -- after the ratio-family chain, lines 1080-1084 set mass_2 from
    -- mass_ratio and mass_1
    let set_mass_2 : Sample → Except String Sample := fun output => do
      let q ← dget output "mass_ratio"
      let m1 ← dget output mass_1_key
      return dset output mass_2_key (q * m1)
    if dmem sample "mass_ratio" then
      set_mass_2 output_sample
    else if dmem sample "symmetric_mass_ratio" then
      set_mass_2 (dset output_sample "mass_ratio"
        (symmetric_mass_ratio_to_mass_ratio (← dget output_sample "symmetric_mass_ratio")))
    else if dmem sample chirp_mass_key then
      set_mass_2 (dset output_sample "mass_ratio"
        (mass_1_and_chirp_mass_to_mass_ratio (← dget output_sample mass_1_key)
          (← dget output_sample chirp_mass_key)))
    else
      check_and_return_quietly
  else if dmem sample mass_2_key then
    -- lines 1109-1113 set mass_1 from mass_ratio and mass_2
    let set_mass_1 : Sample → Except String Sample := fun output => do
      let q ← dget output "mass_ratio"
      let m2 ← dget output mass_2_key
      return dset output mass_1_key (1 / q * m2)
    if dmem sample total_mass_key then
      return dset output_sample mass_1_key
        ((← dget output_sample total_mass_key) - (← dget output_sample mass_2_key))
    else if dmem sample "mass_ratio" then
      set_mass_1 output_sample
    else if dmem sample "symmetric_mass_ratio" then
      set_mass_1 (dset output_sample "mass_ratio"
        (symmetric_mass_ratio_to_mass_ratio (← dget output_sample "symmetric_mass_ratio")))
    else if dmem sample chirp_mass_key then
      set_mass_1 (dset output_sample "mass_ratio"
        (mass_2_and_chirp_mass_to_mass_ratio (← dget output_sample mass_2_key)
          (← dget output_sample chirp_mass_key)))
    else
      -- line 1107: the check's result is discarded (no `return` in the
      -- source); a strict-mode error propagates, lenient mode falls
      -- through to the mass_1 assignment of line 1109
      let _ ← check_and_return_quietly
      set_mass_1 output_sample
  else
    -- neither component mass present (lines 1115-1166); `finalize`
    -- models the shared tail of lines 1154-1166
    let finalize : Sample → Except String Sample := fun output => do
      if !(dmem output total_mass_key) || !(dmem output "mass_ratio") then
        check_and_return_quietly
      else
        let q ← dget output "mass_ratio"
        let M ← dget output total_mass_key
        let p := total_mass_and_mass_ratio_to_component_masses q M
        return dset (dset output mass_1_key p.1) mass_2_key p.2
    if dmem sample total_mass_key then
      if dmem sample "mass_ratio" then
        finalize output_sample
      else if dmem sample "symmetric_mass_ratio" then
        finalize (dset output_sample "mass_ratio"
          (symmetric_mass_ratio_to_mass_ratio (← dget output_sample "symmetric_mass_ratio")))
      else if dmem sample chirp_mass_key then
        let output2 := dset output_sample "symmetric_mass_ratio"
          (chirp_mass_and_total_mass_to_symmetric_mass_ratio
            (← dget output_sample chirp_mass_key) (← dget output_sample total_mass_key))
        finalize (dset output2 "mass_ratio"
          (symmetric_mass_ratio_to_mass_ratio (← dget output2 "symmetric_mass_ratio")))
      else
        check_and_return_quietly
    else if dmem sample chirp_mass_key then
      -- lines 1148-1152 set total_mass after the ratio chain
      let set_total_mass : Sample → Except String Sample := fun output => do
        let mc ← dget output chirp_mass_key
        let q ← dget output "mass_ratio"
        finalize (dset output total_mass_key
          (chirp_mass_and_mass_ratio_to_total_mass mc q))
      if dmem sample "mass_ratio" then
        set_total_mass output_sample
      else if dmem sample "symmetric_mass_ratio" then
        set_total_mass (dset output_sample "mass_ratio"
          (symmetric_mass_ratio_to_mass_ratio (← dget sample "symmetric_mass_ratio")))
      else
        check_and_return_quietly
    else
      finalize output_sample

/-! ## Spin engine entry point (source lines 90-150)

The general 11-scalar to 7-scalar frame transform is an external
collaborator (`lalsim_SimInspiralTransformPrecessingNewInitialConditions`)
and is passed in as the `transform` parameter; the returned tuple is
`(iota, spin_1x, spin_1y, spin_1z, spin_2x, spin_2y, spin_2z)`. -/

/-- Source lines 90-150 (`bilby_to_lalsimulation_spins`), scalar case. -/
def bilby_to_lalsimulation_spins
    (transform : ℝ → ℝ → ℝ → ℝ → ℝ → ℝ → ℝ → ℝ → ℝ → ℝ → ℝ →
      ℝ × ℝ × ℝ × ℝ × ℝ × ℝ × ℝ)
    (theta_jn phi_jl tilt_1 tilt_2 phi_12 a_1 a_2 mass_1 mass_2
      reference_frequency phase : ℝ) : ℝ × ℝ × ℝ × ℝ × ℝ × ℝ × ℝ :=
  if (a_1 = 0 ∨ tilt_1 = 0 ∨ tilt_1 = Real.pi) ∧
      (a_2 = 0 ∨ tilt_2 = 0 ∨ tilt_2 = Real.pi) then
    (theta_jn, 0, 0, a_1 * Real.cos tilt_1, 0, 0, a_2 * Real.cos tilt_2)
  else
    transform theta_jn phi_jl tilt_1 tilt_2 phi_12 a_1 a_2 mass_1 mass_2
      reference_frequency phase

/-! ## Tidal engine (source lines 673-813) -/

/-- Source lines 673-702 (`lambda_1_lambda_2_to_lambda_tilde`). -/
def lambda_1_lambda_2_to_lambda_tilde (lambda_1 lambda_2 mass_1 mass_2 : ℝ) : ℝ :=
  let eta := component_masses_to_symmetric_mass_ratio mass_1 mass_2
  let lambda_plus := lambda_1 + lambda_2
  let lambda_minus := lambda_1 - lambda_2
  8 / 13 * ((1 + 7 * eta - 31 * eta ^ (2 : ℕ)) * lambda_plus +
    (1 - 4 * eta) ^ ((0.5 : ℝ)) * (1 + 9 * eta - 11 * eta ^ (2 : ℕ)) * lambda_minus)

/-- Source lines 705-735 (`lambda_1_lambda_2_to_delta_lambda_tilde`). -/
def lambda_1_lambda_2_to_delta_lambda_tilde (lambda_1 lambda_2 mass_1 mass_2 : ℝ) : ℝ :=
  let eta := component_masses_to_symmetric_mass_ratio mass_1 mass_2
  let lambda_plus := lambda_1 + lambda_2
  let lambda_minus := lambda_1 - lambda_2
  1 / 2 * ((1 - 4 * eta) ^ ((0.5 : ℝ)) *
      (1 - 13272 / 1319 * eta + 8944 / 1319 * eta ^ (2 : ℕ)) * lambda_plus +
    (1 - 15910 / 1319 * eta + 32850 / 1319 * eta ^ (2 : ℕ) +
      3380 / 1319 * eta ^ (3 : ℕ)) * lambda_minus)

/-- Source lines 738-780
(`lambda_tilde_delta_lambda_tilde_to_lambda_1_lambda_2`). -/
def lambda_tilde_delta_lambda_tilde_to_lambda_1_lambda_2
    (lambda_tilde delta_lambda_tilde mass_1 mass_2 : ℝ) : ℝ × ℝ :=
  let eta := component_masses_to_symmetric_mass_ratio mass_1 mass_2
  let coefficient_1 := 1 + 7 * eta - 31 * eta ^ (2 : ℕ)
  let coefficient_2 := (1 - 4 * eta) ^ ((0.5 : ℝ)) * (1 + 9 * eta - 11 * eta ^ (2 : ℕ))
  let coefficient_3 := (1 - 4 * eta) ^ ((0.5 : ℝ)) *
    (1 - 13272 / 1319 * eta + 8944 / 1319 * eta ^ (2 : ℕ))
  let coefficient_4 := 1 - 15910 / 1319 * eta + 32850 / 1319 * eta ^ (2 : ℕ) +
    3380 / 1319 * eta ^ (3 : ℕ)
  let lambda_1 :=
    (13 * lambda_tilde / 8 * (coefficient_3 - coefficient_4) -
      2 * delta_lambda_tilde * (coefficient_1 - coefficient_2)) /
    ((coefficient_1 + coefficient_2) * (coefficient_3 - coefficient_4) -
      (coefficient_1 - coefficient_2) * (coefficient_3 + coefficient_4))
  let lambda_2 :=
    (13 * lambda_tilde / 8 * (coefficient_3 + coefficient_4) -
      2 * delta_lambda_tilde * (coefficient_1 + coefficient_2)) /
    ((coefficient_1 - coefficient_2) * (coefficient_3 + coefficient_4) -
      (coefficient_1 + coefficient_2) * (coefficient_3 - coefficient_4))
  (lambda_1, lambda_2)

/-- Source lines 783-813 (`lambda_tilde_to_lambda_1_lambda_2`). -/
def lambda_tilde_to_lambda_1_lambda_2 (lambda_tilde mass_1 mass_2 : ℝ) : ℝ × ℝ :=
  let eta := component_masses_to_symmetric_mass_ratio mass_1 mass_2
  let q := mass_2 / mass_1
  let lambda_1 := 13 / 8 * lambda_tilde /
    ((1 + 7 * eta - 31 * eta ^ (2 : ℕ)) * (1 + q ^ (-5 : ℤ)) +
      (1 - 4 * eta) ^ ((0.5 : ℝ)) * (1 + 9 * eta - 11 * eta ^ (2 : ℕ)) *
        (1 - q ^ (-5 : ℤ)))
  let lambda_2 := lambda_1 / q ^ (5 : ℕ)
  (lambda_1, lambda_2)

/-! ## Base conversions (source lines 166-359)

The cosmology maps and the equation-of-state solver are external
collaborators and enter as function parameters.  Boolean dictionary
values (`eos_check = False`) are modelled as the real `0`, and the
source's `lambda_2 is None` test (line 325) cannot arise in this
real-valued model, so that branch of the chain is dropped. -/

/-- Source lines 195-202 of
`convert_to_lal_binary_black_hole_parameters`: derive
`luminosity_distance` from `redshift` or `comoving_distance` when it is
absent. -/
def bbh_distance_stage (redshift_to_luminosity_distance : ℝ → ℝ)
    (comoving_distance_to_luminosity_distance : ℝ → ℝ)
    (parameters : Sample) : Except String Sample :=
  if !((dkeys parameters).contains "luminosity_distance") then
    if dmem parameters "redshift" then do
      let z ← dget parameters "redshift"
      pure (dset parameters "luminosity_distance"
        (redshift_to_luminosity_distance z))
    else if dmem parameters "comoving_distance" then do
      let d ← dget parameters "comoving_distance"
      pure (dset parameters "luminosity_distance"
        (comoving_distance_to_luminosity_distance d))
    else
      pure parameters
  else
    pure parameters

/-- Source lines 204-211: rewrite every original key ending in
`"_source"` to its detector-frame value, deriving `redshift` on first
need. -/
def bbh_source_frame_stage (luminosity_distance_to_redshift : ℝ → ℝ)
    (parameters : Sample) (converted : Sample) : Except String Sample :=
  (dkeys parameters).foldlM (fun conv key => do
      if key.takeRight 7 = "_source" then
        let conv ←
          if !(dmem conv "redshift") then do
            let dl ← dget parameters "luminosity_distance"
            pure (dset conv "redshift" (luminosity_distance_to_redshift dl))
          else
            pure conv
        let v ← dget conv key
        let z ← dget conv "redshift"
        pure (dset conv (key.dropRight 7) (v * (1 + z)))
      else
        pure conv) converted

/-- Source lines 216-245: derive `a_i` and `cos_tilt_i` from the
aligned-spin `chi_i` parameterizations.  Scalar Python semantics are
used for the one unguarded division (line 226), where a zero divisor
raises; the guarded division of lines 234-245 falls back to
`cos_tilt = 1`. -/
def bbh_spin_stage (original_keys : List PKey) (converted : Sample) :
    Except String Sample :=
  ["1", "2"].foldlM (fun conv idx => do
      let key := "chi_" ++ idx
      if original_keys.contains key then
        if original_keys.contains ("chi_" ++ idx ++ "_in_plane") then do
          let chi ← dget conv key
          let chi_in_plane ← dget conv ("chi_" ++ idx ++ "_in_plane")
          let conv := dset conv ("a_" ++ idx)
            ((chi ^ (2 : ℕ) + chi_in_plane ^ (2 : ℕ)) ^ ((0.5 : ℝ)))
          let a ← dget conv ("a_" ++ idx)
          if a = 0 then
            throw "ZeroDivisionError"
          else
            pure (dset conv ("cos_tilt_" ++ idx) (chi / a))
        else if !(original_keys.contains ("a_" ++ idx)) then do
          let chi ← dget conv key
          pure (dset (dset conv ("a_" ++ idx) |chi|) ("cos_tilt_" ++ idx) (np_sign chi))
        else do
          let chi ← dget conv key
          let a ← dget conv ("a_" ++ idx)
          pure (dset conv ("cos_tilt_" ++ idx) (if a = 0 then 1 else chi / a))
      else
        pure conv) converted

/-- Source lines 247-249: default `phi_jl` and `phi_12` to `0.0`. -/
def bbh_phi_stage (converted : Sample) : Sample :=
  ["phi_jl", "phi_12"].foldl (fun conv key =>
    if !(dmem conv key) then dset conv key 0.0 else conv) converted

/-- Source lines 251-254: recover angles from their cosines. -/
def bbh_angle_stage (converted : Sample) : Except String Sample :=
  ["tilt_1", "tilt_2", "theta_jn"].foldlM (fun conv angle => do
      if dmem conv ("cos_" ++ angle) then do
        let c ← dget conv ("cos_" ++ angle)
        pure (dset conv angle (Real.arccos c))
      else
        pure conv) converted

/-- Source lines 256-263: recover `phase` from `delta_phase`. -/
def bbh_phase_stage (parameters : Sample) (converted : Sample) :
    Except String Sample :=
  if (dkeys parameters).contains "delta_phase" then do
    let dp ← dget converted "delta_phase"
    let tj ← dget converted "theta_jn"
    let psi ← dget converted "psi"
    pure (dset converted "phase"
      (np_mod (dp - np_sign (Real.cos tj) * psi) (2 * Real.pi)))
  else
    pure converted

/-- Source lines 166-268 (`convert_to_lal_binary_black_hole_parameters`):
the stages above in source order, followed by the added-keys bookkeeping
of lines 265-268.  The three cosmology conversions are passed as
functions. -/
def convert_to_lal_binary_black_hole_parameters
    (redshift_to_luminosity_distance : ℝ → ℝ)
    (comoving_distance_to_luminosity_distance : ℝ → ℝ)
    (luminosity_distance_to_redshift : ℝ → ℝ)
    (parameters : Sample) : Except String (Sample × List PKey) := do
  let converted_parameters ← bbh_distance_stage redshift_to_luminosity_distance
    comoving_distance_to_luminosity_distance parameters
  let converted_parameters ← bbh_source_frame_stage luminosity_distance_to_redshift
    parameters converted_parameters
  let converted_parameters ← generate_component_masses converted_parameters false false
  let converted_parameters ← bbh_spin_stage (dkeys parameters) converted_parameters
  let converted_parameters ← bbh_angle_stage (bbh_phi_stage converted_parameters)
  let converted_parameters ← bbh_phase_stage parameters converted_parameters
  return (converted_parameters, (dkeys converted_parameters).filter
    (fun k => !((dkeys parameters).contains k)))

/-- Source lines 271-359
(`convert_to_lal_binary_neutron_star_parameters`).  The spectral
equation-of-state machinery (`SpectralDecompositionEOS`, `EOSFamily`,
`eos_family_physical_check`; out of core scope) is abstracted into the
four `eos_*` function parameters acting on the gathered gamma values. -/
def convert_to_lal_binary_neutron_star_parameters
    (redshift_to_luminosity_distance : ℝ → ℝ)
    (comoving_distance_to_luminosity_distance : ℝ → ℝ)
    (luminosity_distance_to_redshift : ℝ → ℝ)
    (eos_warning_flag : List ℝ → Bool)
    (eos_family_check : List ℝ → Bool)
    (eos_maximum_mass : List ℝ → ℝ)
    (eos_lambda_from_mass : List ℝ → ℝ → ℝ)
    (parameters : Sample) : Except String (Sample × List PKey) := do
  let (converted_parameters, added_keys) ←
    convert_to_lal_binary_black_hole_parameters
      redshift_to_luminosity_distance comoving_distance_to_luminosity_distance
      luminosity_distance_to_redshift parameters
  -- lines 302-307: no tidal nor equation-of-state key anywhere
  if !(["lambda_1", "lambda_2", "lambda_tilde", "delta_lambda_tilde",
      "eos_spectral_gamma_0"].any (fun k => dmem converted_parameters k)) then
    let converted_parameters := dset converted_parameters "lambda_1" 0
    let converted_parameters := dset converted_parameters "lambda_2" 0
    return (converted_parameters, added_keys ++ ["lambda_1", "lambda_2"])
  -- lines 309-319
  let converted_parameters ←
    if dmem converted_parameters "delta_lambda_tilde" then do
      let lt ← dget converted_parameters "lambda_tilde"
      let dlt ← dget parameters "delta_lambda_tilde"
      let m1 ← dget converted_parameters "mass_1"
      let m2 ← dget converted_parameters "mass_2"
      let p := lambda_tilde_delta_lambda_tilde_to_lambda_1_lambda_2 lt dlt m1 m2
      pure (dset (dset converted_parameters "lambda_1" p.1) "lambda_2" p.2)
    else if dmem converted_parameters "lambda_tilde" then do
      let lt ← dget converted_parameters "lambda_tilde"
      let m1 ← dget converted_parameters "mass_1"
      let m2 ← dget converted_parameters "mass_2"
      let p := lambda_tilde_to_lambda_1_lambda_2 lt m1 m2
      pure (dset (dset converted_parameters "lambda_1" p.1) "lambda_2" p.2)
    else
      pure converted_parameters
  -- lines 320-354
  let converted_parameters ←
    if !(dmem converted_parameters "lambda_2") && dmem converted_parameters "lambda_1" then do
      let l1 ← dget converted_parameters "lambda_1"
      let m1 ← dget converted_parameters "mass_1"
      let m2 ← dget converted_parameters "mass_2"
      pure (dset converted_parameters "lambda_2" (l1 * m1 ^ (5 : ℕ) / m2 ^ (5 : ℕ)))
    else if dmem converted_parameters "eos_spectral_gamma_0" then do
      let eos_parameter_keys := ((dkeys parameters).filter
        (fun k => char_list_infix ("eos_spectral_gamma_".toList) k.toList)).mergeSort
        (fun a b => decide (a ≤ b))
      let gammas ← eos_parameter_keys.mapM (fun k => dget converted_parameters k)
      if eos_warning_flag gammas then
        pure (dset (dset (dset converted_parameters "lambda_1" 0.0) "lambda_2" 0.0)
          "eos_check" 0)
      else if eos_family_check gammas then
        pure (dset (dset (dset converted_parameters "lambda_1" 0.0) "lambda_2" 0.0)
          "eos_check" 0)
      else do
        let m1 ← dget converted_parameters "mass_1"
        let m2 ← dget converted_parameters "mass_2"
        if m1 ≤ eos_maximum_mass gammas ∧ m2 ≤ eos_maximum_mass gammas then
          pure (dset (dset converted_parameters "lambda_1" (eos_lambda_from_mass gammas m1))
            "lambda_2" (eos_lambda_from_mass gammas m2))
        else
          pure (dset (dset (dset converted_parameters "lambda_1" 0.0) "lambda_2" 0.0)
            "eos_check" 0)
    else
      pure converted_parameters
  -- lines 356-359
  let added_keys := (dkeys converted_parameters).filter
    (fun k => !((dkeys parameters).contains k))
  return (converted_parameters, added_keys)

/-! ## Likelihood-stage operations (source lines 1394-1738)

The likelihood collaborator is external: the per-detector SNR
computation and the per-row marginalized resampling enter as function
parameters.  Both `compute_snrs` (dict path, lines 1407-1416) and the
column assignments of
`generate_posterior_samples_from_marginalized_likelihood`
(lines 1704-1705) write into the container that the caller passed in;
the models below give the state of that container when the call
returns. -/

/-- A posterior table: a list of rows. -/
abbrev Table := List Sample

/-- The container handed to the likelihood-stage operations: a single
point (`dict`), a table (`DataFrame`), or an unsupported object. -/
inductive SampleContainer where
  | point (s : Sample)
  | table (t : Table)
  | other

/-- Source lines 1407-1416: the dict path of `compute_snrs` writes the
two per-detector SNR keys into the passed-in sample itself; this is the
state of the caller's dict after the call.  `calculate_snrs` models the
external likelihood call, returning per interferometer name the complex
matched-filter SNR (modelled real) and the real part of the optimal SNR
squared. -/
def compute_snrs_dict (calculate_snrs : String → ℝ × ℝ)
    (interferometers : List String) (sample : Sample) : Sample :=
  interferometers.foldl (fun s name =>
    let per_detector_snr := calculate_snrs name
    dset (dset s (name ++ "_matched_filter_snr") per_detector_snr.1)
      (name ++ "_optimal_snr") (per_detector_snr.2 ^ ((0.5 : ℝ)))) sample

/-- The reconstruction cache: the stored source table (dict key
`"_samples"`) plus one entry per completed block start index. -/
structure CacheDict where
  src : Table
  blocks : List (ℕ × List (List ℝ))

/-- Lookup in the integer-keyed part of the cache dict. -/
def blookup {β : Type} : List (ℕ × β) → ℕ → Option β
  | [], _ => none
  | (k', v) :: t, k => if k' = k then some v else blookup t k

/-- Source lines 1629-1654: a loaded cache is reused only when its
stored source table is value-equal (`DataFrame.equals`) to the current
table; otherwise the whole cache is discarded and replaced by a fresh
dict holding only the current table. -/
def validate_cached_samples_dict (loaded : Option CacheDict) (samples : Table) :
    CacheDict :=
  match loaded with
  | some cached => if cached.src = samples then cached else ⟨samples, []⟩
  | none => ⟨samples, []⟩

/-- The block start indices visited by the `while ii < len(samples)`
loop stepping by `block` (source lines 1674-1694). -/
def block_starts (block n : ℕ) : List ℕ :=
  (List.range ((n + block - 1) / block)).map (fun i => i * block)

/-- Source lines 1676-1694: visit each block start; a start already in
the cache dict is skipped, otherwise its block is computed (external
per-row `fill_sample` calls, abstracted as `fill_block`) and appended. -/
def run_reconstruction_blocks (fill_block : ℕ → List (List ℝ))
    (c : CacheDict) (starts : List ℕ) : CacheDict :=
  starts.foldl (fun acc s =>
    if (blookup acc.blocks s).isSome then acc
    else ⟨acc.src, acc.blocks ++ [(s, fill_block s)]⟩) c

/-- Source lines 1704-1705: assign column `ii` of the concatenated
reconstruction output to the input table under the `ii`-th marginalized
parameter name (`samples[key] = new_samples[:, ii]`). -/
def assign_marginalized_columns (marginalized_parameters : List PKey)
    (new_samples : List (List ℝ)) (t : Table) : Table :=
  marginalized_parameters.enum.foldl (fun acc ik =>
    acc.zipWith (fun row rowVals => dset row ik.2 ((rowVals.get? ik.1).getD 0))
      new_samples) t

/-- Source lines 1583-1707
(`generate_posterior_samples_from_marginalized_likelihood`): dispatch on
the marginalized-parameter list and the container type, then run the
cached block loop and write the columns into the table.  The cache file
I/O is abstracted: `loaded_cache` is the deserialized cache when one was
readable (lines 1629-1635), `none` otherwise. -/
def generate_posterior_samples_from_marginalized_likelihood
    (marginalized_parameters : List PKey) (fill_block : ℕ → List (List ℝ))
    (loaded_cache : Option CacheDict) (block : ℕ)
    (samples : SampleContainer) : Except String SampleContainer :=
  if marginalized_parameters.length = 0 then .ok samples
  else
    match samples with
    | .point s => .ok (.point s)
    | .other => .error "Unable to handle input samples of type"
    | .table t =>
      let cached_samples_dict := validate_cached_samples_dict loaded_cache t
      let cached_samples_dict := run_reconstruction_blocks fill_block
        cached_samples_dict (block_starts block t.length)
      let new_samples := (cached_samples_dict.blocks.map Prod.snd).flatten
      .ok (.table (assign_marginalized_columns marginalized_parameters new_samples t))

/-! ## Theorems -/

/-- Helper: `x ** 0.5` in the source is the real square root on the
nonnegative domain; in Lean `rpow` at `1/2` agrees with `Real.sqrt`
unconditionally. -/
theorem rpow_half_eq_sqrt (x : ℝ) : x ^ ((0.5 : ℝ)) = Real.sqrt x := by
  rw [show (0.5 : ℝ) = 1 / 2 by norm_num, ← Real.sqrt_eq_rpow]

/-- Claim C3: for all `mass_2`, `chirp_mass` (in particular all positive
ones), `mass_2_and_chirp_mass_to_mass_ratio mass_2 chirp_mass` equals
exactly `1 / mass_1_and_chirp_mass_to_mass_ratio mass_2 chirp_mass`. -/
theorem mass_2_form_is_reciprocal_of_mass_1_form (mass_2 chirp_mass : ℝ) :
    mass_2_and_chirp_mass_to_mass_ratio mass_2 chirp_mass =
      1 / mass_1_and_chirp_mass_to_mass_ratio mass_2 chirp_mass := rfl

/-- Claim C5: on `0 < eta <= 1/4` the conversion computes
`q = t - sqrt(t^2 - 1)` with `t = 1/(2*eta) - 1`, and the result is the
physical root: `0 < q <= 1`. -/
theorem symmetric_mass_ratio_conversion_physical_root (eta : ℝ)
    (h0 : 0 < eta) (h1 : eta ≤ 1 / 4) :
    symmetric_mass_ratio_to_mass_ratio eta =
      (1 / (2 * eta) - 1) - Real.sqrt ((1 / (2 * eta) - 1) ^ (2 : ℕ) - 1) ∧
    0 < symmetric_mass_ratio_to_mass_ratio eta ∧
    symmetric_mass_ratio_to_mass_ratio eta ≤ 1 := by
  have h2e : 0 < 2 * eta := by linarith
  have harg : 1 / eta / 2 - 1 = 1 / (2 * eta) - 1 := by ring
  have hform : symmetric_mass_ratio_to_mass_ratio eta =
      (1 / (2 * eta) - 1) - Real.sqrt ((1 / (2 * eta) - 1) ^ (2 : ℕ) - 1) := by
    unfold symmetric_mass_ratio_to_mass_ratio
    show (1 / eta / 2 - 1) - ((1 / eta / 2 - 1) ^ (2 : ℕ) - 1) ^ ((0.5 : ℝ)) =
      (1 / (2 * eta) - 1) - Real.sqrt ((1 / (2 * eta) - 1) ^ (2 : ℕ) - 1)
    rw [rpow_half_eq_sqrt, harg]
  have htge : 1 ≤ 1 / (2 * eta) - 1 := by
    have h2 : (2 : ℝ) ≤ 1 / (2 * eta) := (le_div_iff₀ h2e).mpr (by linarith)
    linarith
  have hsq : (0 : ℝ) ≤ (1 / (2 * eta) - 1) ^ (2 : ℕ) - 1 := by nlinarith
  have hs0 : 0 ≤ Real.sqrt ((1 / (2 * eta) - 1) ^ (2 : ℕ) - 1) := Real.sqrt_nonneg _
  have hs2 : Real.sqrt ((1 / (2 * eta) - 1) ^ (2 : ℕ) - 1) ^ (2 : ℕ) =
      (1 / (2 * eta) - 1) ^ (2 : ℕ) - 1 := Real.sq_sqrt hsq
  refine ⟨hform, ?_, ?_⟩ <;> rw [hform]
  · nlinarith [hs2, hs0, htge]
  · nlinarith [hs2, hs0, htge]

/-- Witness for claim C5 at the boundary point `eta = 1/4`. -/
theorem symmetric_mass_ratio_conversion_physical_root_witness :
    symmetric_mass_ratio_to_mass_ratio (1 / 4) =
      (1 / (2 * (1 / 4)) - 1) - Real.sqrt ((1 / (2 * (1 / 4)) - 1) ^ (2 : ℕ) - 1) ∧
    0 < symmetric_mass_ratio_to_mass_ratio (1 / 4) ∧
    symmetric_mass_ratio_to_mass_ratio (1 / 4) ≤ 1 :=
  symmetric_mass_ratio_conversion_physical_root (1 / 4) (by norm_num) (by norm_num)

/-- Helper for claim C4: over exact reals, the chirp-mass/mass-ratio
total-mass formula inverts the forward maps: plugging in
`Mc = (m1*m2)**0.6/(m1+m2)**0.2` and `q = m2/m1` returns `m1 + m2`.
Proved by comparing logarithms of the two (positive) sides. -/
theorem chirp_total_mass_roundtrip (mass_1 mass_2 : ℝ)
    (h1 : 0 < mass_1) (h2 : 0 < mass_2) :
    chirp_mass_and_mass_ratio_to_total_mass
      (component_masses_to_chirp_mass mass_1 mass_2)
      (component_masses_to_mass_ratio mass_1 mass_2) = mass_1 + mass_2 := by
  have hs : 0 < mass_1 + mass_2 := by linarith
  have hq : 0 < mass_2 / mass_1 := div_pos h2 h1
  have h1q : 0 < 1 + mass_2 / mass_1 := by linarith
  have hmm : 0 < mass_1 * mass_2 := mul_pos h1 h2
  have hMc : 0 < component_masses_to_chirp_mass mass_1 mass_2 :=
    div_pos (Real.rpow_pos_of_pos hmm _) (Real.rpow_pos_of_pos hs _)
  have hL : 0 < chirp_mass_and_mass_ratio_to_total_mass
      (component_masses_to_chirp_mass mass_1 mass_2)
      (component_masses_to_mass_ratio mass_1 mass_2) := by
    unfold chirp_mass_and_mass_ratio_to_total_mass component_masses_to_mass_ratio
    exact div_pos (mul_pos hMc (Real.rpow_pos_of_pos h1q _))
      (Real.rpow_pos_of_pos hq _)
  have hlog : Real.log (chirp_mass_and_mass_ratio_to_total_mass
      (component_masses_to_chirp_mass mass_1 mass_2)
      (component_masses_to_mass_ratio mass_1 mass_2)) =
      Real.log (mass_1 + mass_2) := by
    unfold chirp_mass_and_mass_ratio_to_total_mass
      component_masses_to_chirp_mass component_masses_to_mass_ratio
    rw [Real.log_div (by positivity) (by positivity),
      Real.log_mul (by positivity) (by positivity),
      Real.log_div (by positivity) (by positivity),
      Real.log_rpow hmm, Real.log_rpow hs, Real.log_rpow h1q, Real.log_rpow hq,
      Real.log_mul (ne_of_gt h1) (ne_of_gt h2),
      Real.log_div (ne_of_gt h2) (ne_of_gt h1),
      show (1 : ℝ) + mass_2 / mass_1 = (mass_1 + mass_2) / mass_1 by
        field_simp,
      Real.log_div (ne_of_gt hs) (ne_of_gt h1)]
    ring
  rw [← Real.exp_log hL, hlog, Real.exp_log hs]

/-- Helper for claim C4: the total-mass/mass-ratio inverse recovers the
component masses. -/
theorem total_mass_ratio_roundtrip (mass_1 mass_2 : ℝ)
    (h1 : 0 < mass_1) (h2 : 0 < mass_2) :
    total_mass_and_mass_ratio_to_component_masses
      (component_masses_to_mass_ratio mass_1 mass_2) (mass_1 + mass_2) =
      (mass_1, mass_2) := by
  have h1' : mass_1 ≠ 0 := ne_of_gt h1
  have hs' : mass_1 + mass_2 ≠ 0 := by positivity
  have e1 : (mass_1 + mass_2) / (1 + mass_2 / mass_1) = mass_1 := by
    rw [show (1 : ℝ) + mass_2 / mass_1 = (mass_1 + mass_2) / mass_1 by field_simp,
      div_div_eq_mul_div, mul_comm, mul_div_assoc, div_self hs', mul_one]
  have e2 : mass_1 * (mass_2 / mass_1) = mass_2 := by field_simp
  unfold total_mass_and_mass_ratio_to_component_masses component_masses_to_mass_ratio
  show ((mass_1 + mass_2) / (1 + mass_2 / mass_1),
      (mass_1 + mass_2) / (1 + mass_2 / mass_1) * (mass_2 / mass_1)) = (mass_1, mass_2)
  rw [e1, e2]

/-- Claim C4: for `mass_1 > mass_2 > 0` in exact real arithmetic, the
forward maps to (total mass, mass ratio) and to (chirp mass, mass ratio)
followed by the corresponding inverse maps recover `(mass_1, mass_2)`. -/
theorem mass_parameterization_roundtrips (mass_1 mass_2 : ℝ)
    (h21 : mass_2 < mass_1) (h20 : 0 < mass_2) :
    total_mass_and_mass_ratio_to_component_masses
      (component_masses_to_mass_ratio mass_1 mass_2)
      (component_masses_to_total_mass mass_1 mass_2) = (mass_1, mass_2) ∧
    chirp_mass_and_mass_ratio_to_component_masses
      (component_masses_to_chirp_mass mass_1 mass_2)
      (component_masses_to_mass_ratio mass_1 mass_2) = (mass_1, mass_2) := by
  have h10 : 0 < mass_1 := lt_trans h20 h21
  constructor
  · unfold component_masses_to_total_mass
    exact total_mass_ratio_roundtrip mass_1 mass_2 h10 h20
  · unfold chirp_mass_and_mass_ratio_to_component_masses
    show total_mass_and_mass_ratio_to_component_masses _ _ = _
    rw [chirp_total_mass_roundtrip mass_1 mass_2 h10 h20]
    exact total_mass_ratio_roundtrip mass_1 mass_2 h10 h20

/-- Witness for claim C4 at `mass_1 = 2`, `mass_2 = 1`. -/
theorem mass_parameterization_roundtrips_witness :
    total_mass_and_mass_ratio_to_component_masses
      (component_masses_to_mass_ratio 2 1)
      (component_masses_to_total_mass 2 1) = (2, 1) ∧
    chirp_mass_and_mass_ratio_to_component_masses
      (component_masses_to_chirp_mass 2 1)
      (component_masses_to_mass_ratio 2 1) = (2, 1) :=
  mass_parameterization_roundtrips 2 1 (by norm_num) (by norm_num)

/-- On nonnegative inputs `np.cbrt` is the `1/3` real power. -/
theorem np_cbrt_of_nonneg {x : ℝ} (hx : 0 ≤ x) :
    np_cbrt x = x ^ ((1 : ℝ) / 3) := if_pos hx

/-- Arithmetic fact used to align the two cube-root groupings:
`18 ** (1/3) = cbrt 2 * 3 ** (2/3)`. -/
theorem rpow_third_of_eighteen :
    ((18 : ℝ)) ^ ((1 : ℝ) / 3) = (2 : ℝ) ^ ((1 : ℝ) / 3) * (3 : ℝ) ^ ((2 : ℝ) / 3) := by
  have h9 : (9 : ℝ) = (3 : ℝ) ^ ((2 : ℝ)) := by
    rw [show ((2 : ℝ)) = ((2 : ℕ) : ℝ) by norm_num, Real.rpow_natCast]
    norm_num
  rw [show (18 : ℝ) = 2 * 9 by norm_num,
    Real.mul_rpow (by norm_num) (by norm_num), h9,
    ← Real.rpow_mul (by norm_num : (0 : ℝ) ≤ 3)]
  norm_num

/-- Core identity for claim C10, stated on the shared intermediate
`A = (Mc/m1)^5`: the two groupings of the Cardano solution coincide as
long as the discriminant `27 A^2 - 4 A^3` is nonnegative and `A > 0`. -/
theorem cardano_groupings_agree (A : ℝ) (hA : 0 < A)
    (hS2 : 0 ≤ 27 * A ^ (2 : ℕ) - 4 * A ^ (3 : ℕ)) :
    np_cbrt (2 / 3) * A /
        np_cbrt (9 * A + Real.sqrt 3 * Real.sqrt (27 * A ^ (2 : ℕ) - 4 * A ^ (3 : ℕ))) +
      np_cbrt (9 * A + Real.sqrt 3 * Real.sqrt (27 * A ^ (2 : ℕ) - 4 * A ^ (3 : ℕ))) /
        (np_cbrt 2 * (3 : ℝ) ^ ((2 : ℝ) / 3)) =
    (2 / 3 / ((3 : ℝ) ^ ((0.5 : ℝ)) * (27 * A ^ (2 : ℕ) - 4 * A ^ (3 : ℕ)) ^ ((0.5 : ℝ)) +
        9 * A)) ^ ((1 : ℝ) / 3) * A +
      (((3 : ℝ) ^ ((0.5 : ℝ)) * (27 * A ^ (2 : ℕ) - 4 * A ^ (3 : ℕ)) ^ ((0.5 : ℝ)) +
        9 * A) / (2 * 3 ^ (2 : ℕ))) ^ ((1 : ℝ) / 3) := by
  rw [rpow_half_eq_sqrt ((3 : ℝ)), rpow_half_eq_sqrt (27 * A ^ (2 : ℕ) - 4 * A ^ (3 : ℕ))]
  have hD : 0 < 9 * A + Real.sqrt 3 * Real.sqrt (27 * A ^ (2 : ℕ) - 4 * A ^ (3 : ℕ)) := by
    have hnn := mul_nonneg (Real.sqrt_nonneg 3)
      (Real.sqrt_nonneg (27 * A ^ (2 : ℕ) - 4 * A ^ (3 : ℕ)))
    linarith
  rw [show Real.sqrt 3 * Real.sqrt (27 * A ^ (2 : ℕ) - 4 * A ^ (3 : ℕ)) + 9 * A =
      9 * A + Real.sqrt 3 * Real.sqrt (27 * A ^ (2 : ℕ) - 4 * A ^ (3 : ℕ)) from add_comm _ _,
    np_cbrt_of_nonneg (by norm_num : (0 : ℝ) ≤ 2 / 3),
    np_cbrt_of_nonneg (by norm_num : (0 : ℝ) ≤ 2),
    np_cbrt_of_nonneg hD.le,
    Real.div_rpow (by norm_num : (0 : ℝ) ≤ 2 / 3) hD.le,
    show ((2 : ℝ) * 3 ^ (2 : ℕ)) = 18 by norm_num,
    Real.div_rpow hD.le (by norm_num : (0 : ℝ) ≤ 18),
    rpow_third_of_eighteen]
  ring

/-- Claim C10: the two independent implementations of the
chirp-mass-and-primary-mass to mass-ratio solve compute the same value on
the physical domain `(Mc/m1)^5 <= 27/4` (where the discriminant under the
square root is nonnegative), for positive masses. -/
theorem cardano_mass_ratio_forms_agree (chirp_mass mass_1 : ℝ)
    (hm : 0 < mass_1) (hc : 0 < chirp_mass)
    (hdom : (chirp_mass / mass_1) ^ (5 : ℕ) ≤ 27 / 4) :
    chirp_mass_and_primary_mass_to_mass_ratio chirp_mass mass_1 =
      mass_1_and_chirp_mass_to_mass_ratio mass_1 chirp_mass := by
  have hA : 0 < (chirp_mass / mass_1) ^ (5 : ℕ) := pow_pos (div_pos hc hm) 5
  have hS2 : 0 ≤ 27 * ((chirp_mass / mass_1) ^ (5 : ℕ)) ^ (2 : ℕ) -
      4 * ((chirp_mass / mass_1) ^ (5 : ℕ)) ^ (3 : ℕ) := by nlinarith
  exact cardano_groupings_agree ((chirp_mass / mass_1) ^ (5 : ℕ)) hA hS2

/-- Witness for claim C10 at `chirp_mass = 1`, `mass_1 = 1`. -/
theorem cardano_mass_ratio_forms_agree_witness :
    chirp_mass_and_primary_mass_to_mass_ratio 1 1 =
      mass_1_and_chirp_mass_to_mass_ratio 1 1 :=
  cardano_mass_ratio_forms_agree 1 1 (by norm_num) (by norm_num) (by norm_num)

/-- Claim C1 (divergence exhibited): with insufficient mass inputs the
strict mode raises in every branch, and the lenient mode returns the
input unchanged in the `mass_1`-present and neither-mass branches -- but
in the `mass_2`-present branch the lenient mode does *not* return the
input unchanged: the insufficiency check's result is discarded (missing
`return` at source line 1107) and the subsequent read of the absent
`mass_ratio` key raises a `KeyError`. -/
theorem generate_component_masses_mass_2_branch_falls_through :
    generate_component_masses [("mass_2", (1 : ℝ))] false false = .error "mass_ratio" ∧
    generate_component_masses [("mass_2", (1 : ℝ))] true false =
      .error "Insufficient mass parameters in input dictionary" ∧
    generate_component_masses [("mass_1", (1 : ℝ))] false false = .ok [("mass_1", (1 : ℝ))] ∧
    generate_component_masses [("mass_1", (1 : ℝ))] true false =
      .error "Insufficient mass parameters in input dictionary" ∧
    generate_component_masses [("mass_ratio", (0.5 : ℝ))] false false =
      .ok [("mass_ratio", (0.5 : ℝ))] ∧
    generate_component_masses [("mass_ratio", (0.5 : ℝ))] true false =
      .error "Insufficient mass parameters in input dictionary" :=
  ⟨rfl, rfl, rfl, rfl, rfl, rfl⟩

/-- Claim C6: whenever each body has zero spin magnitude or a tilt of
exactly `0` or `pi`, the spin conversion takes the degenerate fast path:
all four in-plane Cartesian components are `0`, the z-components are
`a_i * cos(tilt_i)`, and `iota` is exactly the input `theta_jn` -- for
*every* external frame-transform routine, i.e. without invoking it. -/
theorem spin_engine_degenerate_fast_path
    (transform : ℝ → ℝ → ℝ → ℝ → ℝ → ℝ → ℝ → ℝ → ℝ → ℝ → ℝ →
      ℝ × ℝ × ℝ × ℝ × ℝ × ℝ × ℝ)
    (theta_jn phi_jl tilt_1 tilt_2 phi_12 a_1 a_2 mass_1 mass_2
      reference_frequency phase : ℝ)
    (h1 : a_1 = 0 ∨ tilt_1 = 0 ∨ tilt_1 = Real.pi)
    (h2 : a_2 = 0 ∨ tilt_2 = 0 ∨ tilt_2 = Real.pi) :
    bilby_to_lalsimulation_spins transform theta_jn phi_jl tilt_1 tilt_2 phi_12
      a_1 a_2 mass_1 mass_2 reference_frequency phase =
      (theta_jn, 0, 0, a_1 * Real.cos tilt_1, 0, 0, a_2 * Real.cos tilt_2) := by
  unfold bilby_to_lalsimulation_spins
  rw [if_pos ⟨h1, h2⟩]

/-- Witness for claim C6 at `a_1 = a_2 = 0` with nonzero tilts and a
transform that would return garbage if it were consulted. -/
theorem spin_engine_degenerate_fast_path_witness :
    bilby_to_lalsimulation_spins
      (fun _ _ _ _ _ _ _ _ _ _ _ => (9, 9, 9, 9, 9, 9, 9))
      1 2 3 4 5 0 0 6 7 8 9 =
      (1, 0, 0, 0 * Real.cos 3, 0, 0, 0 * Real.cos 4) :=
  spin_engine_degenerate_fast_path
    (fun _ _ _ _ _ _ _ _ _ _ _ => (9, 9, 9, 9, 9, 9, 9))
    1 2 3 4 5 0 0 6 7 8 9 (Or.inl rfl) (Or.inl rfl)

/-- Claim C7: the marginalized-likelihood reconstruction returns the
input unchanged when the marginalized-parameter list is empty (for any
container, including unsupported ones) and when the input is a single
point; an unsupported container reaches the fatal `ValueError` only
when the marginalized list is nonempty, because the empty-list check
runs first. -/
theorem reconstruction_dispatch_no_op_and_error
    (marginalized_parameters : List PKey) (fill_block : ℕ → List (List ℝ))
    (loaded_cache : Option CacheDict) (block : ℕ) :
    (∀ c : SampleContainer,
      generate_posterior_samples_from_marginalized_likelihood []
        fill_block loaded_cache block c = .ok c) ∧
    (∀ s : Sample,
      generate_posterior_samples_from_marginalized_likelihood
        marginalized_parameters fill_block loaded_cache block (.point s) =
        .ok (.point s)) ∧
    (marginalized_parameters ≠ [] →
      generate_posterior_samples_from_marginalized_likelihood
        marginalized_parameters fill_block loaded_cache block .other =
        .error "Unable to handle input samples of type") := by
  refine ⟨fun c => rfl, fun s => ?_, fun hne => ?_⟩
  · cases marginalized_parameters with
    | nil => rfl
    | cons a t => rfl
  · cases marginalized_parameters with
    | nil => exact absurd rfl hne
    | cons a t => rfl

/-- Witness for claim C7: the error clause at a concrete nonempty
marginalized list. -/
theorem reconstruction_dispatch_no_op_and_error_witness :
    generate_posterior_samples_from_marginalized_likelihood
      ["geocent_time"] (fun _ => []) none 10 .other =
      .error "Unable to handle input samples of type" :=
  (reconstruction_dispatch_no_op_and_error ["geocent_time"] (fun _ => []) none
    10).2.2 (List.cons_ne_nil _ _)

/-- Counterexample for claim C7 as stated: with an *empty* marginalized
list an unsupported container does not raise -- it is returned
unchanged, because the empty-list no-op check precedes the container
type dispatch. -/
theorem reconstruction_dispatch_empty_list_other_no_error :
    generate_posterior_samples_from_marginalized_likelihood
      [] (fun _ => []) none 10 .other = .ok .other ∧
    (.ok .other : Except String SampleContainer) ≠
      .error "Unable to handle input samples of type" :=
  ⟨rfl, fun h => Except.noConfusion h⟩

/-- Auxiliary: a key absent from the left part of an appended block
list is looked up in the right part. -/
theorem blookup_append_of_none {β : Type} (l₁ l₂ : List (ℕ × β)) (k : ℕ)
    (h : blookup l₁ k = none) : blookup (l₁ ++ l₂) k = blookup l₂ k := by
  induction l₁ with
  | nil => rfl
  | cons hd t ih =>
    obtain ⟨k', v⟩ := hd
    by_cases hk : k' = k
    · simp [blookup, hk] at h
    · simp only [blookup, hk, if_false, List.cons_append] at h ⊢
      exact ih h

/-- Auxiliary: a key present in the left part of an appended block list
keeps its value. -/
theorem blookup_append_of_some {β : Type} (l₁ l₂ : List (ℕ × β)) (k : ℕ)
    (v : β) (h : blookup l₁ k = some v) :
    blookup (l₁ ++ l₂) k = some v := by
  induction l₁ with
  | nil => simp [blookup] at h
  | cons hd t ih =>
    obtain ⟨k', v'⟩ := hd
    by_cases hk : k' = k
    · simp only [blookup, hk, if_true] at h ⊢
      exact h
    · simp only [blookup, hk, if_false] at h ⊢
      exact ih h

/-- Auxiliary: the block loop run on a cache that holds none of the
visited (distinct) starts computes and appends every block in order. -/
theorem run_reconstruction_blocks_fresh (fill_block : ℕ → List (List ℝ))
    (starts : List ℕ) (hnd : starts.Nodup) :
    ∀ c : CacheDict, (∀ s ∈ starts, blookup c.blocks s = none) →
      run_reconstruction_blocks fill_block c starts =
        ⟨c.src, c.blocks ++ starts.map (fun s => (s, fill_block s))⟩ := by
  induction starts with
  | nil => intro c _; simp [run_reconstruction_blocks]
  | cons s rest ih =>
    intro c hc
    have hs : blookup c.blocks s = none := hc s (List.mem_cons_self s rest)
    have hrun : run_reconstruction_blocks fill_block c (s :: rest) =
        run_reconstruction_blocks fill_block
          ⟨c.src, c.blocks ++ [(s, fill_block s)]⟩ rest := by
      simp [run_reconstruction_blocks, hs]
    rw [hrun]
    have hrest : ∀ s' ∈ rest,
        blookup (c.blocks ++ [(s, fill_block s)]) s' = none := by
      intro s' hs'
      rw [blookup_append_of_none _ _ _ (hc s' (List.mem_cons_of_mem s hs'))]
      have hne : s ≠ s' := fun h => (List.nodup_cons.mp hnd).1 (h ▸ hs')
      simp [blookup, hne]
    rw [ih (List.nodup_cons.mp hnd).2 _ hrest]
    simp [List.append_assoc]

/-- Auxiliary: the block loop never overwrites an entry already present
in the cache. -/
theorem run_reconstruction_blocks_preserves (fill_block : ℕ → List (List ℝ))
    (starts : List ℕ) :
    ∀ (c : CacheDict) (k : ℕ) (v : List (List ℝ)),
      blookup c.blocks k = some v →
      blookup (run_reconstruction_blocks fill_block c starts).blocks k = some v := by
  induction starts with
  | nil => intro c k v h; exact h
  | cons s rest ih =>
    intro c k v h
    by_cases hs : (blookup c.blocks s).isSome
    · have : run_reconstruction_blocks fill_block c (s :: rest) =
          run_reconstruction_blocks fill_block c rest := by
        simp [run_reconstruction_blocks, hs]
      rw [this]
      exact ih c k v h
    · have : run_reconstruction_blocks fill_block c (s :: rest) =
          run_reconstruction_blocks fill_block
            ⟨c.src, c.blocks ++ [(s, fill_block s)]⟩ rest := by
        simp [run_reconstruction_blocks, hs]
      rw [this]
      exact ih _ k v (blookup_append_of_some _ _ _ _ h)

/-- Auxiliary: the visited block starts are pairwise distinct whenever
the block size is positive. -/
theorem block_starts_nodup (block n : ℕ) (hb : 0 < block) :
    (block_starts block n).Nodup :=
  List.Nodup.map (fun a b hab => Nat.eq_of_mul_eq_mul_right hb hab)
    (List.nodup_range _)

/-- Claim C8: cache reuse is all-or-nothing on exact value equality of
the stored source table.  If the stored table differs from the current
one the entire loaded cache is discarded and every block is freshly
computed (the final cache is exactly the fresh run); if it is equal the
loaded cache is kept wholesale and every cached block survives the run
unchanged. -/
theorem cache_reuse_all_or_nothing (cached : CacheDict) (samples : Table)
    (fill_block : ℕ → List (List ℝ)) (block n : ℕ) (hb : 0 < block) :
    (cached.src ≠ samples →
      run_reconstruction_blocks fill_block
          (validate_cached_samples_dict (some cached) samples)
          (block_starts block n) =
        ⟨samples, (block_starts block n).map (fun s => (s, fill_block s))⟩) ∧
    (cached.src = samples →
      validate_cached_samples_dict (some cached) samples = cached ∧
      ∀ (s : ℕ) (v : List (List ℝ)), blookup cached.blocks s = some v →
        blookup (run_reconstruction_blocks fill_block cached
          (block_starts block n)).blocks s = some v) := by
  constructor
  · intro hne
    have hval : validate_cached_samples_dict (some cached) samples =
        ⟨samples, []⟩ := by
      simp [validate_cached_samples_dict, hne]
    rw [hval,
      run_reconstruction_blocks_fresh fill_block _ (block_starts_nodup block n hb)
        ⟨samples, []⟩ (fun s _ => rfl)]
    rfl
  · intro heq
    refine ⟨by simp [validate_cached_samples_dict, heq], fun s v hv => ?_⟩
    exact run_reconstruction_blocks_preserves fill_block _ cached s v hv

/-- Witness for claim C8: a concrete stale cache (stored table differs
from the current one in a single cell) is discarded wholesale and all
blocks of a 25-row, block-size-10 run are freshly computed. -/
theorem cache_reuse_all_or_nothing_witness :
    run_reconstruction_blocks (fun _ => [[3]])
        (validate_cached_samples_dict
          (some ⟨[[("a", (1 : ℝ))]], [(0, [[2]])]⟩) [[("a", (0 : ℝ))]])
        (block_starts 10 25) =
      ⟨[[("a", (0 : ℝ))]],
        (block_starts 10 25).map (fun s => (s, (fun _ => [[3]] :
          ℕ → List (List ℝ)) s))⟩ :=
  (cache_reuse_all_or_nothing ⟨[[("a", (1 : ℝ))]], [(0, [[2]])]⟩
    [[("a", (0 : ℝ))]] (fun _ => [[3]]) 10 25 (by norm_num)).1
    (by norm_num)

/-- Auxiliary: assignment makes the key present. -/
theorem dlookup_dset_self (s : Sample) (k : PKey) (v : ℝ) :
    dlookup (dset s k v) k = some v := by
  induction s with
  | nil => simp [dset, dlookup]
  | cons hd t ih =>
    obtain ⟨k', v'⟩ := hd
    by_cases hk : k' = k
    · simp [dset, dlookup, hk]
    · simp [dset, dlookup, hk, ih]

/-- Auxiliary: assignment leaves other keys untouched. -/
theorem dlookup_dset_of_ne (s : Sample) (k k' : PKey) (v : ℝ) (h : k ≠ k') :
    dlookup (dset s k v) k' = dlookup s k' := by
  induction s with
  | nil => simp [dset, dlookup, h]
  | cons hd t ih =>
    obtain ⟨k0, v0⟩ := hd
    by_cases hk : k0 = k
    · subst hk
      simp [dset, dlookup, h]
    · simp [dset, dlookup, hk, ih]

/-- Auxiliary: membership after an assignment. -/
theorem dmem_dset_self (s : Sample) (k : PKey) (v : ℝ) :
    dmem (dset s k v) k = true := by
  simp [dmem, dlookup_dset_self]

/-- Auxiliary: assignment preserves membership of any key. -/
theorem dmem_dset_of_mem (s : Sample) (k k' : PKey) (v : ℝ)
    (h : dmem s k' = true) : dmem (dset s k v) k' = true := by
  by_cases hk : k = k'
  · subst hk; exact dmem_dset_self s k v
  · rw [dmem, dlookup_dset_of_ne s k k' v hk]; exact h

/-- Auxiliary: membership of a different key is unchanged by an
assignment. -/
theorem dmem_dset_of_ne (s : Sample) (k k' : PKey) (v : ℝ) (h : k ≠ k') :
    dmem (dset s k v) k' = dmem s k' := by
  rw [dmem, dlookup_dset_of_ne s k k' v h]; rfl

/-- Auxiliary: reading back the assigned key. -/
theorem dget_dset_self (s : Sample) (k : PKey) (v : ℝ) :
    dget (dset s k v) k = .ok v := by
  rw [dget, dlookup_dset_self]

/-- Auxiliary: reading a different key after an assignment. -/
theorem dget_dset_of_ne (s : Sample) (k k' : PKey) (v : ℝ) (h : k ≠ k') :
    dget (dset s k v) k' = dget s k' := by
  rw [dget, dlookup_dset_of_ne s k k' v h, dget]

/-- Auxiliary: the SNR fold never removes keys. -/
theorem compute_snrs_dict_preserves_mem (calculate_snrs : String → ℝ × ℝ)
    (interferometers : List String) :
    ∀ (sample : Sample) (k : PKey), dmem sample k = true →
      dmem (compute_snrs_dict calculate_snrs interferometers sample) k = true := by
  induction interferometers with
  | nil => intro sample k h; exact h
  | cons ifo rest ih =>
    intro sample k h
    exact ih _ k (dmem_dset_of_mem _ _ _ _ (dmem_dset_of_mem _ _ _ _ h))

/-- Auxiliary: after `compute_snrs` every listed interferometer's
optimal-SNR key is present in the caller's dict. -/
theorem compute_snrs_dict_adds_key (calculate_snrs : String → ℝ × ℝ)
    (interferometers : List String) :
    ∀ (sample : Sample) (name : String), name ∈ interferometers →
      dmem (compute_snrs_dict calculate_snrs interferometers sample)
        (name ++ "_optimal_snr") = true := by
  induction interferometers with
  | nil => intro sample name h; cases h
  | cons ifo rest ih =>
    intro sample name h
    rcases List.mem_cons.mp h with heq | hmem
    · subst heq
      exact compute_snrs_dict_preserves_mem calculate_snrs rest _ _
        (dmem_dset_self _ _ _)
    · exact ih _ name hmem

/-- Counterexample for claim C2: the SNR stage and the marginalized
reconstruction write their result columns into the container the caller
passed in (the model gives the state of that container when the call
returns), so the input is not value-equal before and after: an empty
input dict holds the per-detector SNR keys afterwards, and a one-row
table holds the reconstructed marginalized column afterwards. -/
theorem likelihood_stage_mutates_input_counterexample :
    compute_snrs_dict (fun _ => (1, 1)) ["H1"] [] =
      [("H1_matched_filter_snr", (1 : ℝ)),
        ("H1_optimal_snr", ((1 : ℝ) ^ ((0.5 : ℝ))))] ∧
    ([("H1_matched_filter_snr", (1 : ℝ)),
        ("H1_optimal_snr", ((1 : ℝ) ^ ((0.5 : ℝ))))] : Sample) ≠ [] ∧
    generate_posterior_samples_from_marginalized_likelihood
      ["geocent_time"] (fun _ => [[7]]) none 10 (.table [[("a", (1 : ℝ))]]) =
      .ok (.table [[("a", (1 : ℝ)), ("geocent_time", (7 : ℝ))]]) ∧
    ([[("a", (1 : ℝ)), ("geocent_time", (7 : ℝ))]] : Table) ≠ [[("a", (1 : ℝ))]] := by
  refine ⟨rfl, by simp, rfl, by simp⟩

/-- Claim C2 (amended): the pure conversion and generation functions
operate on `sample.copy()`, but the likelihood-stage operations write
into the passed-in container: whenever some listed interferometer's
optimal-SNR key is absent from the input sample, `compute_snrs` leaves
the caller's dict with that key present, hence not value-equal to its
prior state. -/
theorem compute_snrs_mutates_input (calculate_snrs : String → ℝ × ℝ)
    (interferometers : List String) (sample : Sample) (name : String)
    (hmem : name ∈ interferometers)
    (habs : dmem sample (name ++ "_optimal_snr") = false) :
    compute_snrs_dict calculate_snrs interferometers sample ≠ sample := by
  intro hfix
  have hkey := compute_snrs_dict_adds_key calculate_snrs interferometers
    sample name hmem
  rw [hfix, habs] at hkey
  exact Bool.noConfusion hkey

/-- Witness for claim C2 (amended) at a concrete likelihood with two
detectors and a nonempty input sample. -/
theorem compute_snrs_mutates_input_witness :
    compute_snrs_dict (fun _ => (2, 3)) ["H1", "L1"] [("x", (5 : ℝ))] ≠
      [("x", (5 : ℝ))] :=
  compute_snrs_mutates_input (fun _ => (2, 3)) ["H1", "L1"] [("x", (5 : ℝ))]
    "L1" (by simp) rfl

/-- Auxiliary: inversion for a successful `Except` bind. -/
theorem bind_ok_iff {α β : Type} {x : Except String α} {g : α → Except String β}
    {b : β} : (x >>= g) = .ok b ↔ ∃ a, x = .ok a ∧ g a = .ok b := by
  cases x with
  | error e =>
    constructor
    · intro h; exact absurd h (by simp [Bind.bind, Except.bind])
    · rintro ⟨a, ha, -⟩; exact absurd ha (by simp)
  | ok a =>
    constructor
    · intro h; exact ⟨a, rfl, h⟩
    · rintro ⟨a', ha, hg⟩
      cases ha
      exact hg

/-- Auxiliary: a property preserved by every successful step of a
monadic fold over `Except` is preserved by the whole fold. -/
theorem foldlM_except_preserve {α : Type}
    (f : Sample → α → Except String Sample) (P : Sample → Prop) (l : List α)
    (hstep : ∀ conv a conv', a ∈ l → P conv → f conv a = .ok conv' → P conv') :
    ∀ conv conv', List.foldlM f conv l = .ok conv' → P conv → P conv' := by
  induction l with
  | nil =>
    intro conv conv' hok hP
    simp only [List.foldlM_nil] at hok
    cases hok
    exact hP
  | cons a t ih =>
    intro conv conv' hok hP
    rw [List.foldlM_cons, bind_ok_iff] at hok
    obtain ⟨mid, hmid, hok⟩ := hok
    exact ih (fun c a' c' ha' => hstep c a' c' (List.mem_cons_of_mem a ha'))
      mid conv' hok (hstep conv a mid (List.mem_cons_self a t) hP hmid)

/-- Auxiliary: a property preserved by every step of a pure fold is
preserved by the whole fold. -/
theorem foldl_preserve {α : Type}
    (f : Sample → α → Sample) (P : Sample → Prop) (l : List α)
    (hstep : ∀ conv a, a ∈ l → P conv → P (f conv a)) :
    ∀ conv, P conv → P (List.foldl f conv l) := by
  induction l with
  | nil => intro conv hP; exact hP
  | cons a t ih =>
    intro conv hP
    exact ih (fun c a' ha' => hstep c a' (List.mem_cons_of_mem a ha'))
      (f conv a) (hstep conv a (List.mem_cons_self a t) hP)

/-- Auxiliary: an assignment to a different key keeps an absent key
absent. -/
theorem dmem_dset_absent (s : Sample) (k τ : PKey) (v : ℝ) (hk : k ≠ τ)
    (h : dmem s τ = false) : dmem (dset s k v) τ = false := by
  rw [dmem_dset_of_ne s k τ v hk]; exact h

/-- Auxiliary for claim C9: `generate_component_masses` (as called by the
base conversion, lenient mode, detector frame) writes only mass-family
keys, so any other absent key stays absent in a successful result. -/
theorem generate_component_masses_preserves_absent
    (sample : Sample) (τ : PKey) (hτ : dmem sample τ = false)
    (h1 : τ ≠ "mass_1") (h2 : τ ≠ "mass_2") (h3 : τ ≠ "total_mass")
    (h4 : τ ≠ "mass_ratio") (h5 : τ ≠ "symmetric_mass_ratio")
    (c' : Sample)
    (hok : generate_component_masses sample false false = .ok c') :
    dmem c' τ = false := by
  unfold generate_component_masses at hok
  simp only [Bool.false_eq_true, if_false] at hok
  repeat'
    first
    | split at hok
    | (obtain ⟨v, hv, hok⟩ := bind_ok_iff.mp hok)
  all_goals first
    | (injection hok with he; subst he)
    | injection hok
  all_goals
    repeat'
      first
      | exact hτ
      | (refine dmem_dset_absent _ _ _ _ ?_ ?_)
      | exact Ne.symm h1
      | exact Ne.symm h2
      | exact Ne.symm h3
      | exact Ne.symm h4
      | exact Ne.symm h5

/-- Auxiliary for claim C9: the distance stage writes only
`luminosity_distance`. -/
theorem bbh_distance_stage_preserves (rtl ctl : ℝ → ℝ) (parameters : Sample)
    (τ : PKey) (hτ : dmem parameters τ = false)
    (hLD : τ ≠ "luminosity_distance") (c' : Sample)
    (hok : bbh_distance_stage rtl ctl parameters = .ok c') :
    dmem c' τ = false := by
  unfold bbh_distance_stage at hok
  repeat'
    first
    | split at hok
    | (obtain ⟨v, hv, hok⟩ := bind_ok_iff.mp hok)
  all_goals first
    | (injection hok with he; subst he)
    | injection hok
  all_goals
    repeat'
      first
      | exact hτ
      | (refine dmem_dset_absent _ _ _ _ ?_ ?_)
      | exact Ne.symm hLD

/-- Auxiliary for claim C9: the source-frame stage writes only
`redshift` and the `"_source"`-stripped variants of original keys. -/
theorem bbh_source_frame_stage_preserves (ltr : ℝ → ℝ)
    (parameters converted : Sample) (τ : PKey)
    (hP0 : dmem converted τ = false) (hZ : τ ≠ "redshift")
    (hsrc : ∀ key ∈ dkeys parameters,
      ¬(key.takeRight 7 = "_source" ∧ key.dropRight 7 = τ))
    (c' : Sample)
    (hok : bbh_source_frame_stage ltr parameters converted = .ok c') :
    dmem c' τ = false := by
  unfold bbh_source_frame_stage at hok
  refine foldlM_except_preserve _ (fun c => dmem c τ = false) _ ?_ converted c'
    hok hP0
  intro cv key cv' hkey hP hstep
  simp only [] at hstep
  split at hstep
  case isTrue htake =>
    have hdrop : key.dropRight 7 ≠ τ := fun hd => hsrc key hkey ⟨htake, hd⟩
    split at hstep
    case isTrue hzmem =>
      obtain ⟨dl, hdl, hstep⟩ := bind_ok_iff.mp hstep
      obtain ⟨cz, hcz, hstep⟩ := bind_ok_iff.mp hstep
      injection hcz with hez
      obtain ⟨v, hv, hstep⟩ := bind_ok_iff.mp hstep
      obtain ⟨z, hz, hstep⟩ := bind_ok_iff.mp hstep
      injection hstep with he
      subst he
      refine dmem_dset_absent _ _ _ _ hdrop ?_
      rw [← hez]
      exact dmem_dset_absent _ _ _ _ (Ne.symm hZ) hP
    case isFalse =>
      obtain ⟨cz, hcz, hstep⟩ := bind_ok_iff.mp hstep
      injection hcz with hez
      obtain ⟨v, hv, hstep⟩ := bind_ok_iff.mp hstep
      obtain ⟨z, hz, hstep⟩ := bind_ok_iff.mp hstep
      injection hstep with he
      subst he
      refine dmem_dset_absent _ _ _ _ hdrop ?_
      rw [← hez]
      exact hP
  case isFalse =>
    injection hstep with he
    subst he
    exact hP

/-- Auxiliary for claim C9: the spin stage writes only `a_i` and
`cos_tilt_i`. -/
theorem bbh_spin_stage_preserves (original_keys : List PKey)
    (converted : Sample) (τ : PKey) (hP0 : dmem converted τ = false)
    (hA1 : τ ≠ "a_1") (hA2 : τ ≠ "a_2") (hCT1 : τ ≠ "cos_tilt_1")
    (hCT2 : τ ≠ "cos_tilt_2") (c' : Sample)
    (hok : bbh_spin_stage original_keys converted = .ok c') :
    dmem c' τ = false := by
  unfold bbh_spin_stage at hok
  refine foldlM_except_preserve _ (fun c => dmem c τ = false) _ ?_ converted c'
    hok hP0
  intro cv idx cv' hidx hP hstep
  have hidx2 : idx = "1" ∨ idx = "2" := by
    simpa [List.mem_cons] using hidx
  simp only [] at hstep
  rcases hidx2 with h | h <;> subst h <;>
  · repeat'
      first
      | split at hstep
      | (obtain ⟨v, hv, hstep⟩ := bind_ok_iff.mp hstep)
    all_goals first
      | (injection hstep with he; subst he)
      | injection hstep
    all_goals
      repeat'
        first
        | exact hP
        | (refine dmem_dset_absent _ _ _ _ ?_ ?_)
        | exact Ne.symm hA1
        | exact Ne.symm hA2
        | exact Ne.symm hCT1
        | exact Ne.symm hCT2

/-- Auxiliary for claim C9: the phi-default stage writes only `phi_jl`
and `phi_12`. -/
theorem bbh_phi_stage_preserves (converted : Sample) (τ : PKey)
    (hP0 : dmem converted τ = false) (hPJL : τ ≠ "phi_jl")
    (hP12 : τ ≠ "phi_12") : dmem (bbh_phi_stage converted) τ = false := by
  unfold bbh_phi_stage
  refine foldl_preserve _ (fun c => dmem c τ = false) _ ?_ converted hP0
  intro cv key hkey hP
  have hk2 : key = "phi_jl" ∨ key = "phi_12" := by
    simpa [List.mem_cons] using hkey
  rcases hk2 with h | h <;> subst h <;>
  · split
    · refine dmem_dset_absent _ _ _ _ ?_ hP
      first
      | exact Ne.symm hPJL
      | exact Ne.symm hP12
    · exact hP

/-- Auxiliary for claim C9: the angle stage writes only the three tilt
and inclination angles. -/
theorem bbh_angle_stage_preserves (converted : Sample) (τ : PKey)
    (hP0 : dmem converted τ = false) (hT1 : τ ≠ "tilt_1")
    (hT2 : τ ≠ "tilt_2") (hTJN : τ ≠ "theta_jn") (c' : Sample)
    (hok : bbh_angle_stage converted = .ok c') : dmem c' τ = false := by
  unfold bbh_angle_stage at hok
  refine foldlM_except_preserve _ (fun c => dmem c τ = false) _ ?_ converted c'
    hok hP0
  intro cv angle cv' hangle hP hstep
  have ha3 : angle = "tilt_1" ∨ angle = "tilt_2" ∨ angle = "theta_jn" := by
    simpa [List.mem_cons] using hangle
  simp only [] at hstep
  rcases ha3 with h | h | h <;> subst h <;>
  · repeat'
      first
      | split at hstep
      | (obtain ⟨v, hv, hstep⟩ := bind_ok_iff.mp hstep)
    all_goals first
      | (injection hstep with he; subst he)
      | injection hstep
    all_goals
      repeat'
        first
        | exact hP
        | (refine dmem_dset_absent _ _ _ _ ?_ ?_)
        | exact Ne.symm hT1
        | exact Ne.symm hT2
        | exact Ne.symm hTJN

/-- Auxiliary for claim C9: the phase stage writes only `phase`. -/
theorem bbh_phase_stage_preserves (parameters converted : Sample) (τ : PKey)
    (hP0 : dmem converted τ = false) (hPH : τ ≠ "phase") (c' : Sample)
    (hok : bbh_phase_stage parameters converted = .ok c') :
    dmem c' τ = false := by
  unfold bbh_phase_stage at hok
  repeat'
    first
    | split at hok
    | (obtain ⟨v, hv, hok⟩ := bind_ok_iff.mp hok)
  all_goals first
    | (injection hok with he; subst he)
    | injection hok
  all_goals
    repeat'
      first
      | exact hP0
      | (refine dmem_dset_absent _ _ _ _ ?_ ?_)
      | exact Ne.symm hPH

/-- Auxiliary for claim C9: a key that is absent from the input, is not
one of the keys the black-hole base conversion can write, and is not the
`"_source"`-stripped form of any original key, is still absent from a
successful conversion result. -/
theorem convert_bbh_preserves_absent
    (redshift_to_luminosity_distance comoving_distance_to_luminosity_distance
      luminosity_distance_to_redshift : ℝ → ℝ)
    (parameters : Sample) (τ : PKey)
    (hτ : dmem parameters τ = false)
    (hbad : τ ∉ (["luminosity_distance", "redshift", "mass_1", "mass_2",
      "total_mass", "mass_ratio", "symmetric_mass_ratio", "a_1", "a_2",
      "cos_tilt_1", "cos_tilt_2", "phi_jl", "phi_12", "tilt_1", "tilt_2",
      "theta_jn", "phase"] : List PKey))
    (hsrc : ∀ key ∈ dkeys parameters,
      ¬(key.takeRight 7 = "_source" ∧ key.dropRight 7 = τ))
    (conv : Sample) (added : List PKey)
    (hok : convert_to_lal_binary_black_hole_parameters
      redshift_to_luminosity_distance comoving_distance_to_luminosity_distance
      luminosity_distance_to_redshift parameters = .ok (conv, added)) :
    dmem conv τ = false := by
  simp only [List.mem_cons, List.not_mem_nil, or_false, not_or] at hbad
  obtain ⟨hLD, hZ, hM1, hM2, hMT, hQ, hEta, hA1, hA2, hCT1, hCT2, hPJL,
    hP12, hT1, hT2, hTJN, hPH⟩ := hbad
  unfold convert_to_lal_binary_black_hole_parameters at hok
  obtain ⟨c1, hc1, hok⟩ := bind_ok_iff.mp hok
  obtain ⟨c2, hc2, hok⟩ := bind_ok_iff.mp hok
  obtain ⟨c3, hc3, hok⟩ := bind_ok_iff.mp hok
  obtain ⟨c4, hc4, hok⟩ := bind_ok_iff.mp hok
  obtain ⟨c5, hc5, hok⟩ := bind_ok_iff.mp hok
  obtain ⟨c6, hc6, hok⟩ := bind_ok_iff.mp hok
  have hP1 : dmem c1 τ = false :=
    bbh_distance_stage_preserves _ _ parameters τ hτ hLD c1 hc1
  have hP2 : dmem c2 τ = false :=
    bbh_source_frame_stage_preserves _ parameters c1 τ hP1 hZ hsrc c2 hc2
  have hP3 : dmem c3 τ = false :=
    generate_component_masses_preserves_absent c2 τ hP2 hM1 hM2 hMT hQ hEta c3 hc3
  have hP4 : dmem c4 τ = false :=
    bbh_spin_stage_preserves _ c3 τ hP3 hA1 hA2 hCT1 hCT2 c4 hc4
  have hP5 : dmem c5 τ = false :=
    bbh_angle_stage_preserves _ τ (bbh_phi_stage_preserves c4 τ hP4 hPJL hP12)
      hT1 hT2 hTJN c5 hc5
  have hP6 : dmem c6 τ = false :=
    bbh_phase_stage_preserves parameters c5 τ hP5 hPH c6 hc6
  injection hok with he
  have hconv : conv = c6 := (congrArg Prod.fst he).symm
  rw [hconv]
  exact hP6

/-- Claim C9 (amended): for every input sample containing none of the
keys `lambda_1`, `lambda_2`, `lambda_tilde`, `delta_lambda_tilde`,
`eos_spectral_gamma_0` and no `"_source"`-suffixed variant of them, if
the binary-neutron-star conversion returns (does not raise), the
returned sample has `lambda_1 = 0` and `lambda_2 = 0` and both keys
appear in the returned added-keys list. -/
theorem bns_defaults_main
    (redshift_to_luminosity_distance comoving_distance_to_luminosity_distance
      luminosity_distance_to_redshift : ℝ → ℝ)
    (eos_warning_flag eos_family_check : List ℝ → Bool)
    (eos_maximum_mass : List ℝ → ℝ) (eos_lambda_from_mass : List ℝ → ℝ → ℝ)
    (parameters : Sample)
    (habs : ∀ τ ∈ (["lambda_1", "lambda_2", "lambda_tilde",
      "delta_lambda_tilde", "eos_spectral_gamma_0"] : List PKey),
      dmem parameters τ = false)
    (hsrc : ∀ key ∈ dkeys parameters,
      ¬(key.takeRight 7 = "_source" ∧ key.dropRight 7 ∈
        (["lambda_1", "lambda_2", "lambda_tilde", "delta_lambda_tilde",
          "eos_spectral_gamma_0"] : List PKey)))
    (out : Sample) (added : List PKey)
    (hok : convert_to_lal_binary_neutron_star_parameters
      redshift_to_luminosity_distance comoving_distance_to_luminosity_distance
      luminosity_distance_to_redshift eos_warning_flag eos_family_check
      eos_maximum_mass eos_lambda_from_mass parameters = .ok (out, added)) :
    dget out "lambda_1" = .ok 0 ∧ dget out "lambda_2" = .ok 0 ∧
      "lambda_1" ∈ added ∧ "lambda_2" ∈ added := by
  unfold convert_to_lal_binary_neutron_star_parameters at hok
  obtain ⟨p, hbbh, hok⟩ := bind_ok_iff.mp hok
  obtain ⟨conv, ak⟩ := p
  have habs1 : dmem conv "lambda_1" = false :=
    convert_bbh_preserves_absent _ _ _ parameters "lambda_1"
      (habs _ (by decide)) (by decide)
      (fun key hk h => hsrc key hk ⟨h.1, by rw [h.2]; decide⟩) conv ak hbbh
  have habs2 : dmem conv "lambda_2" = false :=
    convert_bbh_preserves_absent _ _ _ parameters "lambda_2"
      (habs _ (by decide)) (by decide)
      (fun key hk h => hsrc key hk ⟨h.1, by rw [h.2]; decide⟩) conv ak hbbh
  have habs3 : dmem conv "lambda_tilde" = false :=
    convert_bbh_preserves_absent _ _ _ parameters "lambda_tilde"
      (habs _ (by decide)) (by decide)
      (fun key hk h => hsrc key hk ⟨h.1, by rw [h.2]; decide⟩) conv ak hbbh
  have habs4 : dmem conv "delta_lambda_tilde" = false :=
    convert_bbh_preserves_absent _ _ _ parameters "delta_lambda_tilde"
      (habs _ (by decide)) (by decide)
      (fun key hk h => hsrc key hk ⟨h.1, by rw [h.2]; decide⟩) conv ak hbbh
  have habs5 : dmem conv "eos_spectral_gamma_0" = false :=
    convert_bbh_preserves_absent _ _ _ parameters "eos_spectral_gamma_0"
      (habs _ (by decide)) (by decide)
      (fun key hk h => hsrc key hk ⟨h.1, by rw [h.2]; decide⟩) conv ak hbbh
  simp only [List.any_cons, List.any_nil, habs1, habs2, habs3, habs4, habs5,
    Bool.or_false, Bool.or_self, Bool.not_false, if_true] at hok
  injection hok with he
  have hout : out = dset (dset conv "lambda_1" 0) "lambda_2" 0 :=
    (congrArg Prod.fst he).symm
  have hadd : added = ak ++ ["lambda_1", "lambda_2"] :=
    (congrArg Prod.snd he).symm
  subst hout
  subst hadd
  refine ⟨?_, ?_, ?_, ?_⟩
  · rw [dget_dset_of_ne _ _ _ _ (by decide), dget_dset_self]
  · rw [dget_dset_self]
  · simp
  · simp

/-- Witness for claim C9 (amended) at the concrete input
`{mass_1: 2, mass_2: 1}` with identity cosmology collaborators. -/
theorem bns_defaults_main_witness :
    dget [("mass_1", (2 : ℝ)), ("mass_2", (1 : ℝ)), ("phi_jl", (0.0 : ℝ)),
        ("phi_12", (0.0 : ℝ)), ("lambda_1", (0 : ℝ)), ("lambda_2", (0 : ℝ))]
      "lambda_1" = .ok 0 ∧
    dget [("mass_1", (2 : ℝ)), ("mass_2", (1 : ℝ)), ("phi_jl", (0.0 : ℝ)),
        ("phi_12", (0.0 : ℝ)), ("lambda_1", (0 : ℝ)), ("lambda_2", (0 : ℝ))]
      "lambda_2" = .ok 0 ∧
    "lambda_1" ∈ ["phi_jl", "phi_12", "lambda_1", "lambda_2"] ∧
    "lambda_2" ∈ ["phi_jl", "phi_12", "lambda_1", "lambda_2"] :=
  bns_defaults_main (fun z => z) (fun d => d) (fun dl => dl)
    (fun _ => false) (fun _ => false) (fun _ => 0) (fun _ _ => 0)
    [("mass_1", (2 : ℝ)), ("mass_2", (1 : ℝ))] (by decide) (by decide)
    _ _ rfl

/-- Counterexample for claim C9 as stated: two inputs without any of the
five tidal keys on which the claimed behaviour fails.  A sample holding
a `lambda_1_source` key (not one of the five) is rewritten by the base
conversion into a nonzero `lambda_1 = 500 * (1 + z)`, so the returned
`lambda_1` is `500`, not `0`; and a sample holding only `mass_2` makes
the base conversion raise a `KeyError` instead of returning at all. -/
theorem bns_default_tidal_counterexample :
    (match convert_to_lal_binary_neutron_star_parameters (fun z => z)
        (fun d => d) (fun _ => 0) (fun _ => false) (fun _ => false)
        (fun _ => 0) (fun _ _ => 0)
        [("lambda_1_source", (500 : ℝ)), ("luminosity_distance", (100 : ℝ)),
          ("mass_1", (2 : ℝ)), ("mass_2", (1 : ℝ))] with
      | .ok p => dget p.1 "lambda_1"
      | .error e => .error e) = .ok ((500 : ℝ) * (1 + 0)) ∧
    ((500 : ℝ) * (1 + 0) ≠ 0) ∧
    convert_to_lal_binary_neutron_star_parameters (fun z => z) (fun d => d)
      (fun _ => 0) (fun _ => false) (fun _ => false) (fun _ => 0)
      (fun _ _ => 0) [("mass_2", (1 : ℝ))] = .error "mass_ratio" :=
  ⟨rfl, by norm_num, rfl⟩
